import Mathlib

/-!
# Verification of the NextAI gateway core against its specification

This file shallowly embeds the Go sources of the NextAI gateway
(`apps/gateway/internal/runner/runner.go` and the spec-documented parts of
the server: agent loop, cron scheduler, chat store) and proves or refutes
the specification's claims about them.

Strings model Go strings; `String.goTrim` models `strings.TrimSpace`,
`String.goLower` models `strings.ToLower`, `String.intercalate` models
`strings.Join`.  Fallible Go functions returning `(T, error)` are embedded
as `Except RunnerError T`.  The HTTP exchange performed by the OpenAI
adapter is passed in as an explicit value so the adapter is a pure function
of (request, config, exchange).
-/

/-- Kernel-computable model of Go `strings.TrimSpace`: drop whitespace
characters from both ends (stated on the character list so that proofs and
witnesses can evaluate it). -/
def String.goTrim (s : String) : String :=
  ⟨((s.data.dropWhile Char.isWhitespace).reverse.dropWhile Char.isWhitespace).reverse⟩

/-- Kernel-computable model of Go `strings.ToLower`. -/
def String.goLower (s : String) : String :=
  ⟨s.data.map Char.toLower⟩

namespace NextAI

/-! ## Domain types (from `internal/domain`, as used by runner.go) -/

/-- One content part of a runtime message: `domain.RuntimeContent {Type, Text}`. -/
structure RuntimeContent where
  type_ : String
  text : String
  deriving Repr, DecidableEq

/-- One canonical input message: `domain.AgentInputMessage {Role, Type, Content}`. -/
structure AgentInputMessage where
  role : String
  type_ : String
  content : List RuntimeContent
  deriving Repr, DecidableEq

/-- The body of `POST /agent/process`: `domain.AgentProcessRequest {Input}`
(only the field read by the runner). -/
structure AgentProcessRequest where
  input : List AgentInputMessage
  deriving Repr, DecidableEq

/-! ## Runner (from `internal/runner/runner.go`) -/

/-- `runner.RunnerError {Code, Message}` (the wrapped `Err` is dropped:
it never influences control flow in the embedded code). -/
structure RunnerError where
  code : String
  message : String
  deriving Repr, DecidableEq

/-- `runner.GenerateConfig`. -/
structure GenerateConfig where
  providerID : String
  model : String
  apiKey : String
  baseURL : String
  deriving Repr, DecidableEq

def ErrorCodeProviderNotConfigured : String := "provider_not_configured"
def ErrorCodeProviderNotSupported : String := "provider_not_supported"
def ErrorCodeProviderRequestFailed : String := "provider_request_failed"
def ErrorCodeProviderInvalidReply : String := "provider_invalid_reply"

/-- `generateDemoReply` (runner.go:93-109): joins the trimmed non-empty text
parts of the user-role messages with a single space, prefixed `Echo: `;
`Echo: (empty input)` when none exist.  The double `foldl` mirrors the two
nested `for` loops accumulating into `parts`. -/
def generateDemoReply (req : AgentProcessRequest) : String :=
  let parts : List String :=
    req.input.foldl (fun acc msg =>
      if msg.role ≠ "user" then acc
      else msg.content.foldl (fun acc2 c =>
        if c.type_ = "text" ∧ c.text.goTrim ≠ "" then acc2 ++ [c.text.goTrim] else acc2) acc) []
  if parts.isEmpty then "Echo: (empty input)"
  else "Echo: " ++ String.intercalate " " parts

/-- One OpenAI wire message as the runner emits it: `openAIMessage`
(runner.go:206-209).  The struct has exactly two fields — `role` and
`content`; there is no `tool_call_id` or `name` field. -/
structure OpenAIMessage where
  role : String
  content : String
  deriving Repr, DecidableEq

/-- `normalizeRole` (runner.go:249-256). -/
def normalizeRole (role : String) : String :=
  let r := role.goTrim.goLower
  if r = "system" ∨ r = "assistant" ∨ r = "user" ∨ r = "tool" then role.goTrim.goLower
  else "user"

/-- `flattenText` (runner.go:234-247): joins trimmed non-empty text parts
with a newline. -/
def flattenText (content : List RuntimeContent) : String :=
  let parts : List String :=
    content.foldl (fun acc c =>
      if c.type_ ≠ "text" then acc
      else if c.text.goTrim = "" then acc
      else acc ++ [c.text.goTrim]) []
  String.intercalate "\n" parts

/-- `toOpenAIMessages` (runner.go:219-232): every input message whose
flattened, trimmed content is empty is skipped — the role is not consulted
for this decision. -/
def toOpenAIMessages (input : List AgentInputMessage) : List OpenAIMessage :=
  input.foldl (fun out msg =>
    let content := (flattenText msg.content).goTrim
    if content = "" then out
    else out ++ [{ role := normalizeRole msg.role, content := content }]) []

/-! ### The provider HTTP exchange

The OpenAI adapter performs one `POST {base}/chat/completions`.  The outcome
of that exchange (network failure, or an HTTP status plus the result of
`json.Unmarshal` on the ≤2 MiB body) is passed in as a value.  The decoded
body mirrors Go's `openAIChatResponse` (runner.go:211-217): an object with a
`choices` array whose entries carry `message.content` as raw JSON.  Since
the Go struct declares no `tool_calls` field, `json.Unmarshal` silently
drops any `tool_calls` present in the JSON; the model records them in
`OpenAIChoice.toolCalls` so that claims about them can be stated, but — like
the Go code — the embedded adapter never reads that field. -/

/-- A tool call as it may appear in the provider's JSON reply. -/
structure OpenAIWireToolCall where
  id : String
  name : String
  arguments : String
  deriving Repr, DecidableEq

/-- The raw JSON of `message.content`: a JSON string, an array of
`{type, text}` parts, or anything else (including absent). -/
inductive ContentValue where
  | str (s : String)
  | arr (items : List RuntimeContent)
  | other
  deriving Repr, DecidableEq

/-- One entry of the `choices` array, as present in the JSON body. -/
structure OpenAIChoice where
  content : ContentValue
  toolCalls : List OpenAIWireToolCall
  deriving Repr, DecidableEq

/-- Result of `json.Unmarshal` into `openAIChatResponse`:
`invalid` = the body is not JSON that unmarshals into the struct. -/
inductive BodyParse where
  | invalid
  | valid (choices : List OpenAIChoice)
  deriving Repr, DecidableEq

/-- Outcome of `httpClient.Do` + `io.ReadAll`. -/
inductive HttpResult where
  | netError
  | resp (status : Nat) (body : BodyParse)
  deriving Repr, DecidableEq

/-- `extractOpenAIContent` (runner.go:258-277): a JSON string is returned
directly; an array of parts joins the trimmed non-empty `text` of the
`type="text"` items with a newline; anything else yields `""`. -/
def extractOpenAIContent : ContentValue → String
  | .str s => s
  | .arr items =>
      let parts : List String :=
        items.foldl (fun acc item =>
          if item.type_ ≠ "text" then acc
          else if item.text.goTrim = "" then acc
          else acc ++ [item.text.goTrim]) []
      String.intercalate "\n" parts
  | .other => ""

/-- `generateOpenAIReply` (runner.go:111-198), with the HTTP exchange
explicit.  Checks the api key, falls back to the demo reply when the
translated message list is empty (before any HTTP), then classifies the
exchange outcome exactly as the Go code does. -/
def generateOpenAIReply (req : AgentProcessRequest) (cfg : GenerateConfig)
    (http : HttpResult) : Except RunnerError String :=
  let apiKey := cfg.apiKey.goTrim
  if apiKey = "" then
    .error ⟨ErrorCodeProviderNotConfigured, "provider api_key is required"⟩
  else
    let messages := toOpenAIMessages req.input
    if messages.isEmpty then .ok (generateDemoReply req)
    else
      match http with
      | .netError =>
          .error ⟨ErrorCodeProviderRequestFailed, "provider request failed"⟩
      | .resp status body =>
          if status < 200 ∨ 300 ≤ status then
            .error ⟨ErrorCodeProviderRequestFailed,
                    "provider returned status " ++ toString status⟩
          else
            match body with
            | .invalid =>
                .error ⟨ErrorCodeProviderInvalidReply, "provider response is not valid json"⟩
            | .valid choices =>
                match choices with
                | [] =>
                    .error ⟨ErrorCodeProviderInvalidReply, "provider response has no choices"⟩
                | choice :: _ =>
                    let text := (extractOpenAIContent choice.content).goTrim
                    if text = "" then
                      .error ⟨ErrorCodeProviderInvalidReply,
                              "provider response has empty content"⟩
                    else .ok text

/-- `GenerateReply` (runner.go:73-91): demo routing, model requirement,
provider dispatch. -/
def GenerateReply (req : AgentProcessRequest) (cfg : GenerateConfig)
    (http : HttpResult) : Except RunnerError String :=
  let providerID := cfg.providerID.goTrim.goLower
  if providerID = "" ∨ providerID = "demo" then .ok (generateDemoReply req)
  else if cfg.model.goTrim = "" then
    .error ⟨ErrorCodeProviderNotConfigured, "model is required for active provider"⟩
  else if providerID = "openai" then generateOpenAIReply req cfg http
  else
    .error ⟨ErrorCodeProviderNotSupported,
            "provider \"" ++ providerID ++ "\" is not supported"⟩

/-! ## Spec-side definitions (worded from the specification, for refinement) -/

/-- The text parts a message contributes to the demo echo, as the spec words
it: the non-empty trimmed text parts of user-role messages. -/
def demoUserTexts (msg : AgentInputMessage) : List String :=
  if msg.role = "user" then
    msg.content.filterMap (fun c =>
      if c.type_ = "text" ∧ c.text.goTrim ≠ "" then some c.text.goTrim else none)
  else []

/-- The demo reply as the spec words it: `"Echo: " + joined user text`, or
`"Echo: (empty input)"`. -/
def demoEchoSpec (req : AgentProcessRequest) : String :=
  let parts := req.input.flatMap demoUserTexts
  if parts = [] then "Echo: (empty input)"
  else "Echo: " ++ String.intercalate " " parts

/-! ## Chat store (modelled from the spec)

The store and HTTP-handler sources are not part of the repository snapshot
(only `server_test.go` is), so the chat-store behaviour the claims touch is
modelled from the specification's words. -/

/-- A chat record (`{id, name, ...}`; only the fields the claims touch). -/
structure Chat where
  id : String
  name : String
  deriving Repr, DecidableEq

def defaultChatID : String := "chat-default"

/-- An HTTP error reply `{status, error.code}`. -/
structure HttpError where
  status : Nat
  code : String
  deriving Repr, DecidableEq

/-- Modelled from the spec: the store's load pass — missing from `src/` —
guarantees the distinguished default chat `chat-default` is present after
every load. -/
def loadChats (raw : List Chat) : List Chat :=
  if raw.any (fun c => c.id = defaultChatID) then raw
  else ⟨defaultChatID, "Default"⟩ :: raw

/-- Modelled from the spec: `DELETE /chats/{id}` — missing from `src/` —
returns `400 default_chat_protected` for `chat-default` and leaves the
store unchanged; removes any other existing chat; `404 chat_not_found`
otherwise. -/
def deleteChat (chats : List Chat) (id : String) : Option HttpError × List Chat :=
  if id = defaultChatID then (some ⟨400, "default_chat_protected"⟩, chats)
  else if chats.any (fun c => c.id = id) then (none, chats.filter (fun c => c.id ≠ id))
  else (some ⟨404, "chat_not_found"⟩, chats)

/-! ## Calendar and New York timezone arithmetic

Instants are `Int` seconds since 1970-01-01T00:00:00Z; civil-date
conversion uses the standard era-based algorithms. -/

/-- Days since 1970-01-01 of the civil date `(y, m, d)`. -/
def daysFromCivil (y m d : Int) : Int :=
  let y2 := if m ≤ 2 then y - 1 else y
  let era := y2.fdiv 400
  let yoe := y2 - era * 400
  let doy := (153 * (if m > 2 then m - 3 else m + 9) + 2).fdiv 5 + d - 1
  let doe := yoe * 365 + yoe.fdiv 4 - yoe.fdiv 100 + doy
  era * 146097 + doe - 719468

/-- Civil date `(y, m, d)` of the day `z` days after 1970-01-01. -/
def civilFromDays (z0 : Int) : Int × Int × Int :=
  let z := z0 + 719468
  let era := z.fdiv 146097
  let doe := z - era * 146097
  let yoe := (doe - doe.fdiv 1460 + doe.fdiv 36524 - doe.fdiv 146096).fdiv 365
  let y := yoe + era * 400
  let doy := doe - (365 * yoe + yoe.fdiv 4 - yoe.fdiv 100)
  let mp := (5 * doy + 2).fdiv 153
  let d := doy - (153 * mp + 2).fdiv 5 + 1
  let m := if mp < 10 then mp + 3 else mp - 9
  (if m ≤ 2 then y + 1 else y, m, d)

/-- Day of week of day number `z` (0 = Sunday; 1970-01-01 was a Thursday). -/
def dayOfWeek (z : Int) : Int := (z + 4).emod 7

def isLeap (y : Int) : Bool := (y.emod 4 == 0 && y.emod 100 != 0) || y.emod 400 == 0

def daysInMonth (y m : Int) : Int :=
  if m = 2 then (if isLeap y then 29 else 28)
  else if m = 4 ∨ m = 6 ∨ m = 9 ∨ m = 11 then 30 else 31

/-- UTC instant (seconds) of a civil UTC date/time. -/
def utcSeconds (y m d h mi s : Int) : Int :=
  daysFromCivil y m d * 86400 + h * 3600 + mi * 60 + s

/-- Day number of the second Sunday of March of year `y` (US DST start). -/
def nySecondSundayMarch (y : Int) : Int :=
  let mar1 := daysFromCivil y 3 1
  mar1 + (7 - dayOfWeek mar1).emod 7 + 7

/-- Day number of the first Sunday of November of year `y` (US DST end). -/
def nyFirstSundayNov (y : Int) : Int :=
  let nov1 := daysFromCivil y 11 1
  nov1 + (7 - dayOfWeek nov1).emod 7

/-- Modelled from the spec: IANA timezone conversion for
`America/New_York`, the only zone the spec's vectors exercise (standard
offset UTC-5, daylight UTC-4; DST runs from 02:00 local on the second
Sunday of March to 02:00 local on the first Sunday of November).  Converts
a local wall-clock time to the UTC instant it denotes: `none` for the
nonexistent spring-forward hour; the FIRST (daylight) occurrence for the
twice-occurring fall-back hour, per the spec's fall-back rule. -/
def nyLocalToUTC (y m d secOfDay : Int) : Option Int :=
  let l := daysFromCivil y m d * 86400 + secOfDay
  let gapStart := nySecondSundayMarch y * 86400 + 2 * 3600
  let gapEnd := gapStart + 3600
  let ambEnd := nyFirstSundayNov y * 86400 + 2 * 3600
  if gapStart ≤ l ∧ l < gapEnd then none
  else if gapEnd ≤ l ∧ l < ambEnd then some (l + 4 * 3600)
  else some (l + 5 * 3600)

/-! ## Cron scheduler (modelled from the spec)

The scheduler sources are not part of the repository snapshot (only
`server_test.go` is); `resolveCronNextRunAt` and the wake-time misfire
discipline are modelled from the specification. -/

/-- `domain.CronScheduleSpec {Type, Cron, Timezone}`. -/
structure CronScheduleSpec where
  type_ : String
  cron : String
  timezone : String
  deriving Repr, DecidableEq

/-- `domain.CronRuntimeSpec` (only the field the claims touch). -/
structure CronRuntimeSpec where
  misfireGraceSeconds : Int
  deriving Repr, DecidableEq

/-- `domain.CronJobSpec` (only the fields the claims touch). -/
structure CronJobSpec where
  id : String
  schedule : CronScheduleSpec
  runtime : CronRuntimeSpec
  deriving Repr, DecidableEq

/-- `domain.CronJobState` (times as instants). -/
structure CronJobState where
  nextRunAt : Option Int
  lastRunAt : Option Int
  lastStatus : Option String
  lastError : Option String
  deriving Repr, DecidableEq

/-- Parses a non-empty all-digit character list. -/
def parseNatDigits (cs : List Char) : Option Int :=
  if cs ≠ [] ∧ cs.all Char.isDigit then
    some (cs.foldl (fun a c => a * 10 + ((c.toNat : Int) - 48)) 0)
  else none

/-- Splits a character list on spaces, dropping empty fields. -/
def splitWordsAux : List Char → List Char → List (List Char)
  | [], cur => if cur.isEmpty then [] else [cur.reverse]
  | c :: rest, cur =>
      if c = ' ' then
        if cur.isEmpty then splitWordsAux rest []
        else cur.reverse :: splitWordsAux rest []
      else splitWordsAux rest (c :: cur)

/-- Modelled from the spec: a Go duration literal of the shape the spec
shows for interval schedules (`"1s"`, `"5m"`, hours analogously), in
seconds. -/
def parseGoDuration (cs : List Char) : Option Int :=
  let digits := cs.takeWhile Char.isDigit
  let rest := cs.dropWhile Char.isDigit
  match parseNatDigits digits with
  | none => none
  | some n =>
      if rest = ['s'] then some n
      else if rest = ['m'] then some (n * 60)
      else if rest = ['h'] then some (n * 3600)
      else none

/-- One cron field: `none` is `*`, `some n` a literal value. -/
def CronField := Option Int
  deriving Repr, DecidableEq

/-- A parsed cron expression. -/
structure CronExpr where
  sec : Option Int
  min : Option Int
  hour : Option Int
  dom : Option Int
  month : Option Int
  dow : Option Int
  deriving Repr, DecidableEq

def parseCronField (cs : List Char) : Except String (Option Int) :=
  if cs = ['*'] then .ok none
  else match parseNatDigits cs with
    | some n => .ok (some n)
    | none => .error "invalid cron field"

/-- Modelled from the spec: cron expression parsing.  The spec calls the
expression six-field (`sec min hr dom mon dow`) while its own test vectors
are five-field (`min hr dom mon dow`); both are accepted, a five-field
expression firing at second 0. -/
def parseCronExpr (s : String) : Except String CronExpr := do
  let fields ← (splitWordsAux s.data []).mapM parseCronField
  match fields with
  | [f0, f1, f2, f3, f4, f5] => .ok ⟨f0, f1, f2, f3, f4, f5⟩
  | [f0, f1, f2, f3, f4] => .ok ⟨some 0, f0, f1, f2, f3, f4⟩
  | _ => .error "invalid cron expression"

def matchesField (f : Option Int) (v : Int) : Bool :=
  match f with
  | none => true
  | some n => n == v

/-- Modelled from the spec: the next UTC fire of a cron expression
evaluated in `America/New_York`, strictly after `now`.  Wall-clock
candidates that match the expression are enumerated in local chronological
order; a candidate falling in the nonexistent spring-forward hour is
skipped (the fire advances to the next valid matching instant) and one in
the repeated fall-back hour fires at its first occurrence. -/
def cronNextInNY (e : CronExpr) (now : Int) : Option Int :=
  let nowYear := (civilFromDays (now.fdiv 86400)).1
  ((List.range 4).flatMap fun dy =>
    let y := nowYear - 1 + (dy : Int)
    (List.range 12).flatMap fun m0 =>
      let m : Int := (m0 : Int) + 1
      if matchesField e.month m then
        (List.range 31).flatMap fun d0 =>
          let d : Int := (d0 : Int) + 1
          if d ≤ daysInMonth y m ∧ matchesField e.dom d
              ∧ matchesField e.dow (dayOfWeek (daysFromCivil y m d)) then
            (List.range 24).flatMap fun h =>
              if matchesField e.hour (h : Int) then
                (List.range 60).flatMap fun mi =>
                  if matchesField e.min (mi : Int) then
                    (List.range 60).filterMap fun sc =>
                      if matchesField e.sec (sc : Int) then
                        match nyLocalToUTC y m d ((h : Int) * 3600 + (mi : Int) * 60 + (sc : Int)) with
                        | some t => if now < t then some t else none
                        | none => none
                      else none
                  else []
              else []
          else []
      else []).head?

/-- Modelled from the spec: `resolve_next_run_at(job, last_run, now)` —
the scheduler sources are missing from `src/`.  `interval`: next is
`max(last_run, now) + interval`.  `cron`: next matching instant in the
job's IANA timezone (only `America/New_York` is modelled, the sole zone
the spec exercises). -/
def resolveCronNextRunAt (job : CronJobSpec) (lastRun : Option Int) (now : Int) :
    Except String Int :=
  if job.schedule.type_ = "interval" then
    match parseGoDuration job.schedule.cron.data with
    | none => .error "invalid interval duration"
    | some d => .ok (max (lastRun.getD now) now + d)
  else if job.schedule.type_ = "cron" then
    if job.schedule.timezone = "America/New_York" then
      match parseCronExpr job.schedule.cron with
      | .error e => .error e
      | .ok expr =>
          match cronNextInNY expr now with
          | some t => .ok t
          | none => .error "no next fire found"
    else .error "timezone not modelled"
  else .error "unsupported schedule type"

/-- Outcome of one cron task execution. -/
inductive TaskResult where
  | succeeded
  | failed (msg : String)
  deriving Repr, DecidableEq

/-- Modelled from the spec: one scheduler wake for a due job.  If
`now - next_run_at > misfire_grace_seconds` the fire is skipped: the task
is not run (second component `false`), state records `last_status=failed`
with `last_error="misfire skipped"`, `last_run_at` is left untouched, and
`next_run_at` is recomputed from `now`.  Otherwise the task runs and the
state records its outcome. -/
def cronWakeStep (job : CronJobSpec) (st : CronJobState) (now : Int)
    (runTask : Unit → TaskResult) : CronJobState × Bool :=
  match st.nextRunAt with
  | none => (st, false)
  | some t =>
      if now - t > job.runtime.misfireGraceSeconds then
        ({ nextRunAt := (resolveCronNextRunAt job st.lastRunAt now).toOption,
           lastRunAt := st.lastRunAt,
           lastStatus := some "failed",
           lastError := some "misfire skipped" }, false)
      else
        match runTask () with
        | .succeeded =>
            ({ nextRunAt := (resolveCronNextRunAt job (some now) now).toOption,
               lastRunAt := some now,
               lastStatus := some "succeeded",
               lastError := none }, true)
        | .failed msg =>
            ({ nextRunAt := (resolveCronNextRunAt job (some now) now).toOption,
               lastRunAt := some now,
               lastStatus := some "failed",
               lastError := some msg }, true)

/-! ## Agent loop (modelled from the spec)

The agent-loop sources are not part of the repository snapshot (only
`server_test.go` is); the model-autonomous loop with tool-error feedback is
modelled from the specification.  Only the `edit` built-in tool — the one
the claim's scenario exercises — is modelled. -/

/-- A message of the provider conversation the loop maintains. -/
structure LoopMessage where
  role : String
  content : String
  toolCallId : String
  deriving Repr, DecidableEq

/-- Arguments of a modelled tool call. -/
inductive ToolArgs where
  | edit (path : String) (start endLine : Int) (content : String)
  deriving Repr, DecidableEq

/-- One tool call returned by the model. -/
structure LoopToolCall where
  id : String
  name : String
  args : ToolArgs
  deriving Repr, DecidableEq

/-- One provider turn: final text and/or tool calls. -/
structure ProviderTurn where
  text : String
  toolCalls : List LoopToolCall
  deriving Repr, DecidableEq

/-- The workspace as the tools see it: path ↦ lines. -/
abbrev FileSys := List (String × List String)

/-- Outcome of one tool execution. -/
inductive ToolOutcome where
  | ok (summary : String) (fs : FileSys)
  | inputError (code msg : String)
  deriving Repr, DecidableEq

def lookupFile (fs : FileSys) (path : String) : Option (List String) :=
  (fs.find? (fun e => e.1 = path)).map (fun e => e.2)

/-- Splits a character list on a separator, keeping empty segments. -/
def splitOnChar (sep : Char) : List Char → List Char → List (List Char)
  | [], cur => [cur.reverse]
  | c :: rest, cur =>
      if c = sep then cur.reverse :: splitOnChar sep rest []
      else splitOnChar sep rest (c :: cur)

/-- Modelled from the spec: the `edit` tool — missing from `src/` —
replaces lines `[start..end]` of the file with the content split on
newlines; a range out of file bounds fails as `invalid_tool_input` with
message `tool input line range is out of file bounds` (the exact phrasing
the loop's error-feedback path consumes). -/
def editTool (fs : FileSys) (path : String) (start endLine : Int)
    (content : String) : ToolOutcome :=
  match lookupFile fs path with
  | none => .inputError "invalid_tool_input" "tool input path not found"
  | some lines =>
      if 1 ≤ start ∧ start ≤ endLine ∧ endLine ≤ (lines.length : Int) then
        let newLines := lines.take (start - 1).toNat
          ++ (splitOnChar '\n' content.data []).map (fun cs => String.mk cs)
          ++ lines.drop endLine.toNat
        .ok ("edit " ++ path)
          (fs.map (fun e => if e.1 = path then (path, newLines) else e))
      else .inputError "invalid_tool_input" "tool input line range is out of file bounds"

def MAX_STEPS : Nat := 8

/-- Executes the turn's tool calls in order, threading the file system and
collecting the tool-role messages to feed back: a successful call yields
its summary, a structured `invalid_tool_input` failure yields the
synthesized `tool_error code=<code>\n<message>` feedback message. -/
def runToolCalls (fs : FileSys) (calls : List LoopToolCall) :
    FileSys × List LoopMessage :=
  calls.foldl (fun acc call =>
    match call.args with
    | .edit path start endLine content =>
        match editTool acc.1 path start endLine content with
        | .ok summary fs2 => (fs2, acc.2 ++ [⟨"tool", summary, call.id⟩])
        | .inputError code msg =>
            (acc.1, acc.2 ++ [⟨"tool", "tool_error code=" ++ code ++ "\n" ++ msg, call.id⟩]))
    (fs, [])

/-- Modelled from the spec: the model-autonomous agent loop — missing from
`src/`.  `script` lists the provider's turns, one per provider request; the
result carries the final reply and the trace of message lists sent to the
provider (one entry per request).  The loop terminates when a turn returns
text and no tool calls, runs at most `MAX_STEPS` iterations, and does NOT
abort on `invalid_tool_input`: the synthesized tool-error message is
appended and the next turn runs. -/
def runAgentLoop : Nat → FileSys → List LoopMessage → List ProviderTurn →
    List (List LoopMessage) → Except String (String × List (List LoopMessage))
  | _, _, _, [], _ => .error "provider produced no further turn"
  | step, fs, convo, turn :: rest, trace =>
      if step > MAX_STEPS then .error "max steps exceeded"
      else
        let trace2 := trace ++ [convo]
        if turn.toolCalls.isEmpty ∧ turn.text ≠ "" then .ok (turn.text, trace2)
        else
          let r := runToolCalls fs turn.toolCalls
          let convo2 := convo ++ [⟨"assistant", turn.text, ""⟩] ++ r.2
          runAgentLoop (step + 1) r.1 convo2 rest trace2

/-- Entry point of the model-autonomous mode. -/
def processAgentAutonomous (fs : FileSys) (input : List LoopMessage)
    (script : List ProviderTurn) : Except String (String × List (List LoopMessage)) :=
  runAgentLoop 1 fs input script []

/-! ## Characterization lemmas for the accumulator loops -/

theorem inner_parts_eq (cs : List RuntimeContent) (acc : List String) :
    cs.foldl (fun acc2 c =>
        if c.type_ = "text" ∧ c.text.goTrim ≠ "" then acc2 ++ [c.text.goTrim] else acc2) acc
      = acc ++ cs.filterMap (fun c =>
        if c.type_ = "text" ∧ c.text.goTrim ≠ "" then some c.text.goTrim else none) := by
  induction cs generalizing acc with
  | nil => simp
  | cons c cs ih =>
      by_cases h : c.type_ = "text" ∧ c.text.goTrim ≠ "" <;>
        simp [h, ih, List.append_assoc]

theorem demo_parts_eq (l : List AgentInputMessage) (acc : List String) :
    l.foldl (fun acc msg =>
        if msg.role ≠ "user" then acc
        else msg.content.foldl (fun acc2 c =>
          if c.type_ = "text" ∧ c.text.goTrim ≠ "" then acc2 ++ [c.text.goTrim] else acc2) acc) acc
      = acc ++ l.flatMap demoUserTexts := by
  induction l generalizing acc with
  | nil => simp
  | cons msg ms ih =>
      have hstep :
          (if msg.role ≠ "user" then acc
           else msg.content.foldl (fun acc2 c =>
             if c.type_ = "text" ∧ c.text.goTrim ≠ "" then acc2 ++ [c.text.goTrim] else acc2) acc)
            = acc ++ demoUserTexts msg := by
        by_cases h : msg.role = "user"
        · simp [h, inner_parts_eq, demoUserTexts]
        · simp [h, demoUserTexts]
      rw [List.foldl_cons, hstep, ih, List.flatMap_cons, List.append_assoc]

theorem generateDemoReply_eq_spec (req : AgentProcessRequest) :
    generateDemoReply req = demoEchoSpec req := by
  unfold generateDemoReply demoEchoSpec
  rw [demo_parts_eq]
  simp [List.isEmpty_iff]

theorem toOpenAIMessages_eq_filterMap (input : List AgentInputMessage) :
    toOpenAIMessages input = input.filterMap (fun msg =>
      if (flattenText msg.content).goTrim = "" then none
      else some ⟨normalizeRole msg.role, (flattenText msg.content).goTrim⟩) := by
  suffices h : ∀ (l : List AgentInputMessage) (acc : List OpenAIMessage),
      l.foldl (fun out msg =>
        let content := (flattenText msg.content).goTrim
        if content = "" then out
        else out ++ [{ role := normalizeRole msg.role, content := content }]) acc
      = acc ++ l.filterMap (fun msg =>
        if (flattenText msg.content).goTrim = "" then none
        else some ⟨normalizeRole msg.role, (flattenText msg.content).goTrim⟩) by
    simpa [toOpenAIMessages] using h input []
  intro l
  induction l with
  | nil => simp
  | cons msg ms ih =>
      intro acc
      by_cases h : (flattenText msg.content).goTrim = "" <;>
        simp [h, ih, List.append_assoc]

/-! ## Claims about the provider runner -/

/-- **C2**: with the demo provider active (`provider_id` empty or `demo`),
`GenerateReply` returns `"Echo: "` plus the joined non-empty trimmed text
parts of the user-role input messages, and `"Echo: (empty input)"` when no
such part exists — stated as a refinement of the spec-worded
`demoEchoSpec`. -/
theorem generate_reply_demo_echoes_user_text (req : AgentProcessRequest)
    (cfg : GenerateConfig) (http : HttpResult)
    (h : cfg.providerID.goTrim.goLower = "" ∨ cfg.providerID.goTrim.goLower = "demo") :
    GenerateReply req cfg http = .ok (demoEchoSpec req) := by
  simp only [GenerateReply]
  rw [if_pos h, generateDemoReply_eq_spec]

/-- **C2 witness**: input text `"hello world"` with the demo provider
yields reply `"Echo: hello world"`. -/
theorem generate_reply_demo_echoes_user_text_witness :
    GenerateReply ⟨[⟨"user", "message", [⟨"text", "hello world"⟩]⟩]⟩
        ⟨"demo", "demo-chat", "", ""⟩ .netError = .ok "Echo: hello world" :=
  (generate_reply_demo_echoes_user_text ⟨[⟨"user", "message", [⟨"text", "hello world"⟩]⟩]⟩
      ⟨"demo", "demo-chat", "", ""⟩ .netError (Or.inr rfl)).trans (by rfl)

/-- **C3 counterexample**: a provider response whose first choice carries a
non-empty `tool_calls` array together with non-empty text content is NOT
rejected — `GenerateReply` returns the text.  (The Go `openAIChatResponse`
struct declares no `tool_calls` field, so the array is silently dropped by
`json.Unmarshal`.) -/
theorem reply_with_tool_calls_not_rejected :
    GenerateReply ⟨[⟨"user", "message", [⟨"text", "hi"⟩]⟩]⟩
        ⟨"openai", "gpt-4o-mini", "sk-test", ""⟩
        (.resp 200 (.valid [⟨.str "hi there", [⟨"call_1", "read_file", "\x7b\x7d"⟩]⟩]))
      = .ok "hi there" := by rfl

/-- **C3 amended**: `GenerateReply` ignores `tool_calls` entirely: for a
2xx response whose first choice carries a (non-empty) `tool_calls` array,
the outcome depends only on the choice's content — `provider_invalid_reply`
when the extracted content is empty after trimming, and the trimmed text
otherwise. -/
theorem tool_calls_in_reply_are_ignored (req : AgentProcessRequest)
    (cfg : GenerateConfig) (status : Nat) (cv : ContentValue)
    (tcs : List OpenAIWireToolCall) (rest : List OpenAIChoice)
    (hp : cfg.providerID.goTrim.goLower = "openai")
    (hm : cfg.model.goTrim ≠ "") (hk : cfg.apiKey.goTrim ≠ "")
    (hmsg : toOpenAIMessages req.input ≠ [])
    (hs1 : 200 ≤ status) (hs2 : status < 300) (_htc : tcs ≠ []) :
    GenerateReply req cfg (.resp status (.valid (⟨cv, tcs⟩ :: rest)))
      = if (extractOpenAIContent cv).goTrim = ""
        then .error ⟨ErrorCodeProviderInvalidReply, "provider response has empty content"⟩
        else .ok ((extractOpenAIContent cv).goTrim) := by
  simp only [GenerateReply, generateOpenAIReply]
  rw [hp]
  rw [if_neg (by decide), if_neg hm, if_pos rfl, if_neg hk]
  rw [if_neg (by simp [List.isEmpty_iff, hmsg])]
  rw [if_neg (by omega)]

/-- **C3 amended witness**: a 2xx response carrying one tool call and empty
content yields `provider_invalid_reply` (empty content), not a tool-call
rejection. -/
theorem tool_calls_in_reply_are_ignored_witness :
    GenerateReply ⟨[⟨"user", "message", [⟨"text", "run it"⟩]⟩]⟩
        ⟨"openai", "gpt-4o-mini", "sk-test", ""⟩
        (.resp 200 (.valid [⟨.str "", [⟨"call_1", "shell", "\x7b\x7d"⟩]⟩]))
      = .error ⟨"provider_invalid_reply", "provider response has empty content"⟩ :=
  (tool_calls_in_reply_are_ignored ⟨[⟨"user", "message", [⟨"text", "run it"⟩]⟩]⟩
      ⟨"openai", "gpt-4o-mini", "sk-test", ""⟩ 200 (.str "")
      [⟨"call_1", "shell", "\x7b\x7d"⟩] [] rfl (by decide) (by decide) (by decide)
      (by decide) (by decide) (by decide)).trans (by rfl)

/-- **C4 counterexample**: a tool-role input message with empty content is
dropped from the translated message list, contradicting "tool: always
emit". -/
theorem tool_message_with_empty_content_is_dropped :
    toOpenAIMessages [⟨"tool", "message", []⟩] = [] := by rfl

/-- **C4 amended**: the canonical-to-OpenAI translation treats tool-role
messages like every other role: a message is emitted iff its flattened,
trimmed content is non-empty, and the emitted wire message carries only
`role` and `content` (the wire struct has no `tool_call_id` or `name`
fields to copy metadata into). -/
theorem tool_messages_translated_like_all_roles (input : List AgentInputMessage) :
    toOpenAIMessages input = input.filterMap (fun msg =>
      if (flattenText msg.content).goTrim = "" then none
      else some ⟨normalizeRole msg.role, (flattenText msg.content).goTrim⟩) :=
  toOpenAIMessages_eq_filterMap input

/-- **C10**: the roles emitted by the translation are exactly the
normalized roles: recognized roles (`system`, `assistant`, `user`, `tool`
after trimming and lowercasing) are emitted trimmed and lowercased, and any
other role is emitted as `user`. -/
theorem emitted_roles_are_normalized (input : List AgentInputMessage) :
    (toOpenAIMessages input).map (fun m => m.role)
      = input.filterMap (fun msg =>
          if (flattenText msg.content).goTrim = "" then none
          else some (if msg.role.goTrim.goLower = "system" ∨ msg.role.goTrim.goLower = "assistant"
              ∨ msg.role.goTrim.goLower = "user" ∨ msg.role.goTrim.goLower = "tool"
            then msg.role.goTrim.goLower else "user")) := by
  rw [toOpenAIMessages_eq_filterMap, List.map_filterMap]
  refine List.filterMap_congr (fun msg _ => ?_)
  by_cases h : (flattenText msg.content).goTrim = "" <;> simp [h, normalizeRole]

/-- **C9 counterexample**: a request to the openai provider whose input all
flattens to empty text does NOT reach the demo fallback when the api key is
missing — the key check comes first and fails with
`provider_not_configured`. -/
theorem empty_input_with_missing_key_fails :
    GenerateReply ⟨[⟨"user", "message", []⟩]⟩ ⟨"openai", "gpt-4o-mini", "", ""⟩
        (.resp 200 (.valid []))
      = .error ⟨"provider_not_configured", "provider api_key is required"⟩ := by rfl

/-- **C9 amended**: for the configured openai provider (non-empty model and
api key), when the translated message list is empty `GenerateReply` returns
the demo echo reply for every possible HTTP outcome (the result does not
depend on the exchange, so no HTTP request is needed); with no non-empty
user text the reply is exactly `"Echo: (empty input)"`. -/
theorem empty_translation_falls_back_to_demo (req : AgentProcessRequest)
    (cfg : GenerateConfig) (http : HttpResult)
    (hp : cfg.providerID.goTrim.goLower = "openai")
    (hm : cfg.model.goTrim ≠ "") (hk : cfg.apiKey.goTrim ≠ "")
    (hempty : toOpenAIMessages req.input = []) :
    GenerateReply req cfg http = .ok (generateDemoReply req)
    ∧ (req.input.flatMap demoUserTexts = [] →
        GenerateReply req cfg http = .ok "Echo: (empty input)") := by
  have hok : GenerateReply req cfg http = .ok (generateDemoReply req) := by
    simp only [GenerateReply, generateOpenAIReply]
    rw [hp]
    rw [if_neg (by decide), if_neg hm, if_pos rfl, if_neg hk]
    rw [if_pos (by simp [List.isEmpty_iff, hempty])]
  refine ⟨hok, fun hparts => ?_⟩
  rw [hok, generateDemoReply_eq_spec]
  simp only [demoEchoSpec]
  rw [if_pos hparts]

/-- **C9 amended witness**: whitespace-only user text with a configured
openai provider yields `"Echo: (empty input)"` even when the (unused) HTTP
exchange would have failed. -/
theorem empty_translation_falls_back_to_demo_witness :
    GenerateReply ⟨[⟨"user", "message", [⟨"text", "   "⟩]⟩]⟩
        ⟨"openai", "gpt-4o-mini", "sk-test", ""⟩ .netError
      = .ok "Echo: (empty input)" :=
  (empty_translation_falls_back_to_demo ⟨[⟨"user", "message", [⟨"text", "   "⟩]⟩]⟩
      ⟨"openai", "gpt-4o-mini", "sk-test", ""⟩ .netError rfl (by decide) (by decide)
      (by decide)).2 (by decide)

/-- **C5**: `GenerateReply` with the openai provider classifies failures
exactly as specified — missing model or missing api key yield
`provider_not_configured`; once a request is issued (non-empty translated
messages), any status outside `[200,300)` yields `provider_request_failed`;
a 2xx body that does not unmarshal, has no choices, or whose first choice's
content trims to empty yields `provider_invalid_reply`. -/
theorem openai_error_classification (req : AgentProcessRequest)
    (cfg : GenerateConfig) (http : HttpResult)
    (hp : cfg.providerID.goTrim.goLower = "openai") :
    (cfg.model.goTrim = "" →
      GenerateReply req cfg http
        = .error ⟨ErrorCodeProviderNotConfigured, "model is required for active provider"⟩)
    ∧ (cfg.model.goTrim ≠ "" → cfg.apiKey.goTrim = "" →
      GenerateReply req cfg http
        = .error ⟨ErrorCodeProviderNotConfigured, "provider api_key is required"⟩)
    ∧ (cfg.model.goTrim ≠ "" → cfg.apiKey.goTrim ≠ "" →
        toOpenAIMessages req.input ≠ [] →
      (∀ status body, http = .resp status body → (status < 200 ∨ 300 ≤ status) →
        GenerateReply req cfg http
          = .error ⟨ErrorCodeProviderRequestFailed,
                    "provider returned status " ++ toString status⟩)
      ∧ (∀ status, http = .resp status .invalid → 200 ≤ status → status < 300 →
        GenerateReply req cfg http
          = .error ⟨ErrorCodeProviderInvalidReply, "provider response is not valid json"⟩)
      ∧ (∀ status, http = .resp status (.valid []) → 200 ≤ status → status < 300 →
        GenerateReply req cfg http
          = .error ⟨ErrorCodeProviderInvalidReply, "provider response has no choices"⟩)
      ∧ (∀ status choice rest, http = .resp status (.valid (choice :: rest)) →
          200 ≤ status → status < 300 →
          (extractOpenAIContent choice.content).goTrim = "" →
        GenerateReply req cfg http
          = .error ⟨ErrorCodeProviderInvalidReply, "provider response has empty content"⟩)) := by
  have hroute : ¬(cfg.providerID.goTrim.goLower = "" ∨ cfg.providerID.goTrim.goLower = "demo") := by
    rw [hp]; decide
  refine ⟨fun hm => ?_, fun hm hk => ?_, fun hm hk hmsg => ?_⟩
  · simp only [GenerateReply]
    rw [if_neg hroute, if_pos hm]
  · simp only [GenerateReply, generateOpenAIReply]
    rw [if_neg hroute, if_neg hm, hp, if_pos rfl, if_pos hk]
  · have hbase : GenerateReply req cfg http = generateOpenAIReply req cfg http := by
      simp only [GenerateReply]
      rw [if_neg hroute, if_neg hm, hp, if_pos rfl]
    have hmsgs : ¬(toOpenAIMessages req.input).isEmpty = true := by
      simp [List.isEmpty_iff, hmsg]
    refine ⟨fun status body hhttp hbad => ?_, fun status hhttp h1 h2 => ?_,
            fun status hhttp h1 h2 => ?_, fun status choice rest hhttp h1 h2 hempty => ?_⟩
    · rw [hbase, hhttp]
      simp only [generateOpenAIReply]
      rw [if_neg hk, if_neg hmsgs, if_pos hbad]
    · rw [hbase, hhttp]
      simp only [generateOpenAIReply]
      rw [if_neg hk, if_neg hmsgs, if_neg (by omega)]
    · rw [hbase, hhttp]
      simp only [generateOpenAIReply]
      rw [if_neg hk, if_neg hmsgs, if_neg (by omega)]
    · rw [hbase, hhttp]
      simp only [generateOpenAIReply]
      rw [if_neg hk, if_neg hmsgs, if_neg (by omega), if_pos hempty]

/-- **C5 witness**: a 502 upstream response is classified as
`provider_request_failed`. -/
theorem openai_error_classification_witness :
    GenerateReply ⟨[⟨"user", "message", [⟨"text", "hello"⟩]⟩]⟩
        ⟨"openai", "gpt-4o-mini", "sk-test", ""⟩ (.resp 502 .invalid)
      = .error ⟨"provider_request_failed", "provider returned status 502"⟩ :=
  ((openai_error_classification ⟨[⟨"user", "message", [⟨"text", "hello"⟩]⟩]⟩
      ⟨"openai", "gpt-4o-mini", "sk-test", ""⟩ (.resp 502 .invalid)
      rfl).2.2 (by decide) (by decide) (by decide)).1 502 .invalid rfl (by omega)

/-! ## Claims about the spec-modelled server components -/

/-- **C1**: when the model's first turn requests an `edit` whose line range
is out of the file's bounds, the loop does not abort: the second provider
request contains a tool-role message whose content is exactly
`tool_error code=invalid_tool_input` + newline + the out-of-bounds message,
and the request completes with the model's subsequent reply. -/
theorem tool_input_error_feeds_back_to_model (fs : FileSys)
    (input : List LoopMessage) (path : String) (lines : List String)
    (start endLine : Int) (newContent reply callId : String)
    (hfile : lookupFile fs path = some lines)
    (hoob : ¬(1 ≤ start ∧ start ≤ endLine ∧ endLine ≤ (lines.length : Int)))
    (hreply : reply ≠ "") :
    processAgentAutonomous fs input
        [⟨"", [⟨callId, "edit", .edit path start endLine newContent⟩]⟩, ⟨reply, []⟩]
      = .ok (reply,
          [input,
           input ++ [⟨"assistant", "", ""⟩,
             ⟨"tool",
              "tool_error code=invalid_tool_input\ntool input line range is out of file bounds",
              callId⟩]])
    ∧ (⟨"tool",
         "tool_error code=invalid_tool_input\ntool input line range is out of file bounds",
         callId⟩ : LoopMessage)
        ∈ (input ++ [⟨"assistant", "", ""⟩,
             ⟨"tool",
              "tool_error code=invalid_tool_input\ntool input line range is out of file bounds",
              callId⟩]) := by
  refine ⟨?_, by simp⟩
  simp only [processAgentAutonomous, runAgentLoop, runToolCalls, editTool,
    List.foldl_cons, List.foldl_nil, hfile]
  rw [if_neg hoob]
  simp [hreply, MAX_STEPS]

/-- **C1 witness**: the repository test's scenario — a two-line file, an
edit with range 9..9, and a recovery reply. -/
theorem tool_input_error_feeds_back_to_model_witness :
    processAgentAutonomous [("/ws/f.txt", ["line-1", "line-2"])]
        [⟨"user", "edit then recover", ""⟩]
        [⟨"", [⟨"call_edit", "edit", .edit "/ws/f.txt" 9 9 "x"⟩]⟩,
         ⟨"fixed after tool error", []⟩]
      = .ok ("fixed after tool error",
          [[⟨"user", "edit then recover", ""⟩],
           [⟨"user", "edit then recover", ""⟩] ++ [⟨"assistant", "", ""⟩,
             ⟨"tool",
              "tool_error code=invalid_tool_input\ntool input line range is out of file bounds",
              "call_edit"⟩]])
    ∧ (⟨"tool",
         "tool_error code=invalid_tool_input\ntool input line range is out of file bounds",
         "call_edit"⟩ : LoopMessage)
        ∈ ([⟨"user", "edit then recover", ""⟩] ++ [⟨"assistant", "", ""⟩,
             ⟨"tool",
              "tool_error code=invalid_tool_input\ntool input line range is out of file bounds",
              "call_edit"⟩]) :=
  tool_input_error_feeds_back_to_model [("/ws/f.txt", ["line-1", "line-2"])]
    [⟨"user", "edit then recover", ""⟩] "/ws/f.txt" ["line-1", "line-2"] 9 9 "x"
    "fixed after tool error" "call_edit" rfl (by decide) (by decide)

/-- **C6**: the spec's two DST vectors: cron `30 2 8 3 *` in
`America/New_York` from `2026-02-15T00:00:00Z` next fires at
`2027-03-08T07:30:00Z` (the 2026-03-08 02:30 wall time falls in the
spring-forward gap and is skipped), and cron `30 1 1 11 *` next fires at
`2026-11-01T05:30:00Z` (the first, daylight occurrence of the repeated
01:30 wall time). -/
theorem cron_dst_vectors :
    resolveCronNextRunAt ⟨"job-spring", ⟨"cron", "30 2 8 3 *", "America/New_York"⟩, ⟨0⟩⟩
        none (utcSeconds 2026 2 15 0 0 0)
      = .ok (utcSeconds 2027 3 8 7 30 0)
    ∧ resolveCronNextRunAt ⟨"job-fall", ⟨"cron", "30 1 1 11 *", "America/New_York"⟩, ⟨0⟩⟩
        none (utcSeconds 2026 2 15 0 0 0)
      = .ok (utcSeconds 2026 11 1 5 30 0) :=
  ⟨rfl, rfl⟩

/-- **C7**: a wake with `now - next_run_at > misfire_grace_seconds` skips
the fire: the task does not run, `last_status` becomes `failed`,
`last_error` is `misfire skipped`, `last_run_at` stays unset, and
`next_run_at` is recomputed from `now`. -/
theorem misfire_outside_grace_is_skipped (job : CronJobSpec)
    (st : CronJobState) (now t : Int) (runTask : Unit → TaskResult)
    (hdue : st.nextRunAt = some t)
    (hlate : now - t > job.runtime.misfireGraceSeconds)
    (hunset : st.lastRunAt = none) :
    (cronWakeStep job st now runTask).2 = false
    ∧ (cronWakeStep job st now runTask).1.lastStatus = some "failed"
    ∧ (cronWakeStep job st now runTask).1.lastError = some "misfire skipped"
    ∧ (cronWakeStep job st now runTask).1.lastRunAt = none
    ∧ (cronWakeStep job st now runTask).1.nextRunAt
        = (resolveCronNextRunAt job none now).toOption := by
  simp only [cronWakeStep, hdue]
  rw [if_pos hlate]
  simp [hunset]

/-- **C7 witness**: the repository test's configuration — an interval job
(`1s`, grace 1 s) whose persisted `next_run_at` lies 15 s in the past. -/
theorem misfire_outside_grace_is_skipped_witness :
    (cronWakeStep ⟨"job-misfire", ⟨"interval", "1s", ""⟩, ⟨1⟩⟩
        ⟨some 1000000, none, none, none⟩ 1000015 (fun _ => .succeeded)).2 = false
    ∧ (cronWakeStep ⟨"job-misfire", ⟨"interval", "1s", ""⟩, ⟨1⟩⟩
        ⟨some 1000000, none, none, none⟩ 1000015 (fun _ => .succeeded)).1.lastStatus
        = some "failed"
    ∧ (cronWakeStep ⟨"job-misfire", ⟨"interval", "1s", ""⟩, ⟨1⟩⟩
        ⟨some 1000000, none, none, none⟩ 1000015 (fun _ => .succeeded)).1.lastError
        = some "misfire skipped"
    ∧ (cronWakeStep ⟨"job-misfire", ⟨"interval", "1s", ""⟩, ⟨1⟩⟩
        ⟨some 1000000, none, none, none⟩ 1000015 (fun _ => .succeeded)).1.lastRunAt = none
    ∧ (cronWakeStep ⟨"job-misfire", ⟨"interval", "1s", ""⟩, ⟨1⟩⟩
        ⟨some 1000000, none, none, none⟩ 1000015 (fun _ => .succeeded)).1.nextRunAt
        = (resolveCronNextRunAt ⟨"job-misfire", ⟨"interval", "1s", ""⟩, ⟨1⟩⟩
            none 1000015).toOption :=
  misfire_outside_grace_is_skipped ⟨"job-misfire", ⟨"interval", "1s", ""⟩, ⟨1⟩⟩
    ⟨some 1000000, none, none, none⟩ 1000015 1000000 (fun _ => .succeeded)
    rfl (by decide) rfl

/-- **C8**: `chat-default` is present after every store load, and a delete
targeting it returns `400 default_chat_protected` leaving the store — and
in particular the default chat — untouched. -/
theorem default_chat_is_protected (raw chats : List Chat)
    (hload : chats = loadChats raw) :
    chats.any (fun c => c.id = defaultChatID) = true
    ∧ deleteChat chats defaultChatID = (some ⟨400, "default_chat_protected"⟩, chats)
    ∧ (deleteChat chats defaultChatID).2.any (fun c => c.id = defaultChatID) = true := by
  have hpresent : chats.any (fun c => c.id = defaultChatID) = true := by
    subst hload
    unfold loadChats
    by_cases h : raw.any (fun c => c.id = defaultChatID) = true
    · rw [if_pos h]; exact h
    · rw [if_neg h]; simp [defaultChatID]
  have hdel : deleteChat chats defaultChatID
      = (some ⟨400, "default_chat_protected"⟩, chats) := by
    unfold deleteChat
    rw [if_pos rfl]
  exact ⟨hpresent, hdel, by rw [hdel]; exact hpresent⟩

/-- **C8 witness**: loading an empty store yields the default chat, whose
deletion is refused with `400 default_chat_protected`. -/
theorem default_chat_is_protected_witness :
    ([⟨"chat-default", "Default"⟩] : List Chat).any (fun c => c.id = defaultChatID) = true
    ∧ deleteChat [⟨"chat-default", "Default"⟩] defaultChatID
        = (some ⟨400, "default_chat_protected"⟩, [⟨"chat-default", "Default"⟩])
    ∧ (deleteChat [⟨"chat-default", "Default"⟩] defaultChatID).2.any
        (fun c => c.id = defaultChatID) = true :=
  default_chat_is_protected [] [⟨"chat-default", "Default"⟩] (by decide)

end NextAI
